import Mathlib

/-
Verification of the TypeScript resolver-declaration generator
(src/packages/graphqlgen/src/generators/typescript/generator.ts)
against its natural-language specification.

The generator is shallowly embedded: every function of generator.ts becomes a
Lean definition on a Lean rendering of the schema-graph data model.  Helpers
that generator.ts imports from generators/common.ts, utils.ts and
source-helper.ts are not part of the given sources; those are modelled from
the specification and are marked as such in their doc comments.
-/

set_option maxHeartbeats 1000000

/-- Join a list of strings with a separator, as JavaScript `Array.prototype.join`. -/
def joinWith (sep : String) : List String → String
  | [] => ""
  | [x] => x
  | x :: y :: rest => x ++ sep ++ joinWith sep (y :: rest)

/-- The platform end-of-line marker `os.EOL`, fixed to a single newline here. -/
def eol : String := "\n"

/-- JavaScript object spread update: the result of evaluating
`\x7b ...m, [k]: v \x7d` as an association list.  If `k` is already a key its
binding is replaced in place (JavaScript keeps the original key position);
otherwise the new binding is appended (insertion order). -/
def objSet {β : Type} (m : List (String × β)) (k : String) (v : β) : List (String × β) :=
  if m.any (fun p => p.1 = k) then m.map (fun p => if p.1 = k then (k, v) else p)
  else m ++ [(k, v)]

/-- JavaScript property read `m[k]` on an association list built by `objSet`. -/
def objGet {β : Type} (m : List (String × β)) (k : String) : Option β :=
  (m.find? (fun p => p.1 = k)).map (fun p => p.2)

/-- Build a string-keyed object by folding `objSet` over a list, keying and
valuing each element, as the `reduce`-with-spread idiom of generator.ts. -/
def buildMap {α β : Type} (key : α → String) (val : α → β) (l : List α) :
    List (String × β) :=
  l.foldl (fun m a => objSet m (key a) (val a)) []

/-- First-occurrence deduplication (JavaScript
`arr.filter((x, i) => arr.indexOf(x) === i)` semantics), with an accumulator
of already-seen elements. -/
def dedupFirstAux (seen : List String) : List String → List String
  | [] => []
  | x :: xs => if x ∈ seen then dedupFirstAux seen xs else x :: dedupFirstAux (x :: seen) xs

/-- First-occurrence deduplication of a list of strings. -/
def dedupFirst (l : List String) : List String := dedupFirstAux [] l

theorem mem_dedupFirstAux (a : String) :
    ∀ (l seen : List String), a ∈ dedupFirstAux seen l ↔ a ∈ l ∧ a ∉ seen := by
  intro l
  induction l with
  | nil => intro seen; simp [dedupFirstAux]
  | cons x xs ih =>
    intro seen
    by_cases hx : x ∈ seen
    · have hstep : dedupFirstAux seen (x :: xs) = dedupFirstAux seen xs := by
        simp [dedupFirstAux, hx]
      rw [hstep, ih]
      simp only [List.mem_cons]
      constructor
      · rintro ⟨h1, h2⟩; exact ⟨Or.inr h1, h2⟩
      · rintro ⟨h1 | h1, h2⟩
        · exact absurd (h1 ▸ hx) h2
        · exact ⟨h1, h2⟩
    · have hstep : dedupFirstAux seen (x :: xs) = x :: dedupFirstAux (x :: seen) xs := by
        simp [dedupFirstAux, hx]
      rw [hstep]
      simp only [List.mem_cons, ih]
      constructor
      · rintro (rfl | ⟨h1, h2⟩)
        · exact ⟨Or.inl rfl, hx⟩
        · exact ⟨Or.inr h1, fun hs => h2 (Or.inr hs)⟩
      · rintro ⟨rfl | h1, h2⟩
        · exact Or.inl rfl
        · by_cases hax : a = x
          · exact Or.inl hax
          · exact Or.inr ⟨h1, fun hs => hs.elim hax h2⟩

theorem mem_dedupFirst (a : String) (l : List String) :
    a ∈ dedupFirst l ↔ a ∈ l := by
  simp [dedupFirst, mem_dedupFirstAux]

theorem nodup_dedupFirstAux :
    ∀ (l seen : List String), (dedupFirstAux seen l).Nodup := by
  intro l
  induction l with
  | nil => intro seen; simp [dedupFirstAux]
  | cons x xs ih =>
    intro seen
    by_cases hx : x ∈ seen
    · simpa [dedupFirstAux, if_pos hx] using ih seen
    · simp only [dedupFirstAux, if_neg hx, List.nodup_cons]
      refine ⟨fun hmem => ?_, ih (x :: seen)⟩
      exact ((mem_dedupFirstAux x xs (x :: seen)).mp hmem).2 (List.mem_cons_self x seen)

theorem nodup_dedupFirst (l : List String) : (dedupFirst l).Nodup :=
  nodup_dedupFirstAux l []

/-! ### The schema-graph data model

The typed schema graph consumed by the generator is produced by
source-helper.ts, which is not among the given sources; the structures below
are modelled from the specification (section 3) and from how generator.ts
reads them. -/

/-- A resolved type definition of the schema graph (source-helper.ts,
modelled from the spec, section 3): a name plus kind flags.  The field
`isSubscriptionRoot` is modelled from the spec, which gives the object type
definition a "flag marking it as the root subscription type". -/
structure GraphQLTypeDefinition where
  name : String
  isScalar : Bool := false
  isEnum : Bool := false
  isInput : Bool := false
  isObject : Bool := false
  isInterface : Bool := false
  isUnion : Bool := false
  deriving Repr, DecidableEq

/-- A field or argument type reference (spec, section 3, TypeRef): the
referenced definition name, its kind flags, and the list/non-null wrappers. -/
structure GraphQLTypeRef where
  name : String
  isScalar : Bool := false
  isEnum : Bool := false
  isInput : Bool := false
  isObject : Bool := false
  isInterface : Bool := false
  isUnion : Bool := false
  isArray : Bool := false
  isRequired : Bool := false
  deriving Repr, DecidableEq

/-- A named argument of a field (spec, section 3, ArgumentDef). -/
structure GraphQLTypeArgument where
  name : String
  type : GraphQLTypeRef
  deriving Repr, DecidableEq

/-- A field of an object, interface or input type (spec, section 3,
FieldDef). -/
structure GraphQLTypeField where
  name : String
  type : GraphQLTypeRef
  arguments : List GraphQLTypeArgument
  deriving Repr, DecidableEq

/-- An object (or input) type of the schema graph (spec, section 3,
ObjectTypeDef/InputTypeDef).  `implements` is the optional list of interface
names the type declares; `isSubscriptionRoot` is the root-subscription
designation flag, modelled from the spec (section 3) — the generator code
under src/ never reads it. -/
structure GraphQLTypeObject where
  name : String
  type : GraphQLTypeDefinition
  fields : List GraphQLTypeField
  implements : Option (List String) := none
  isSubscriptionRoot : Bool := false
  deriving Repr, DecidableEq

/-- An interface type with its implementors (spec, section 3,
InterfaceTypeDef). -/
structure GraphQLInterfaceObject where
  name : String
  type : GraphQLTypeDefinition
  fields : List GraphQLTypeField
  implementors : List GraphQLTypeDefinition
  deriving Repr, DecidableEq

/-- A union type with its member type definitions (spec, section 3,
UnionTypeDef). -/
structure GraphQLUnionObject where
  name : String
  types : List GraphQLTypeDefinition
  deriving Repr, DecidableEq

/-- An enum type (external to the core per the spec, section 1). -/
structure GraphQLEnumObject where
  name : String
  values : List String
  deriving Repr, DecidableEq

/-- The configured context type (types.ts ContextDefinition, not among the
given sources; modelled from the spec, section 6). -/
structure ContextDefinition where
  contextPath : String
  interfaceName : String
  deriving Repr, DecidableEq

/-- Modelled from the spec (section 3, ModelBinding): the user-supplied
mapping from schema type name to backing model type name.  The richer
model-definition metadata of types.ts is not needed by the claims. -/
abbrev ModelMap : Type := List (String × String)

/-- The arguments record of `generate` (types.ts GenerateArgs, modelled from
the spec, sections 2 and 6). -/
structure GenerateArgs where
  types : List GraphQLTypeObject
  enums : List GraphQLEnumObject
  interfaces : List GraphQLInterfaceObject
  unions : List GraphQLUnionObject
  context : Option ContextDefinition
  modelMap : ModelMap
  defaultResolversEnabled : Bool

/-- The TypeScript union `GraphQLTypeObject | GraphQLInterfaceObject` used by
renderTypeResolver, renderResolverTypeInterface, renderInputArgInterfaces and
renderIsTypeOfFunctionInterface. -/
inductive GraphQLObjectOrInterface where
  | obj (o : GraphQLTypeObject)
  | ifc (i : GraphQLInterfaceObject)
  deriving Repr, DecidableEq

/-- The owning type's name, `type.name` in generator.ts. -/
def GraphQLObjectOrInterface.name : GraphQLObjectOrInterface → String
  | .obj o => o.name
  | .ifc i => i.name

/-- The owning type's resolved definition, `type.type` in generator.ts. -/
def GraphQLObjectOrInterface.typeDef : GraphQLObjectOrInterface → GraphQLTypeDefinition
  | .obj o => o.type
  | .ifc i => i.type

/-- The owning type's field list, `type.fields` in generator.ts. -/
def GraphQLObjectOrInterface.fields : GraphQLObjectOrInterface → List GraphQLTypeField
  | .obj o => o.fields
  | .ifc i => i.fields

/-- The TypeScript union `GraphQLInterfaceObject | GraphQLUnionObject` taken
by renderTypeResolveTypeResolver; the constructors play the role of the
`kind` discriminant read at its line `abstractType.kind === 'interface'`. -/
inductive GraphQLAbstractType where
  | ifc (i : GraphQLInterfaceObject)
  | uni (u : GraphQLUnionObject)
  deriving Repr, DecidableEq

/-- Modelled from the spec (section 2): AbstractMembership for interfaces,
the map from interface name to implementor definitions built by
createInterfacesMap of generators/common.ts (not among the given sources). -/
abbrev InterfacesMap : Type := List (String × List GraphQLTypeDefinition)

/-- Modelled from the spec (section 2): AbstractMembership for unions, the
map from union name to member definitions built by createUnionsMap of
generators/common.ts (not among the given sources). -/
abbrev UnionsMap : Type := List (String × List GraphQLTypeDefinition)

/-- Modelled from the spec (sections 2 and 4.1): createInterfacesMap of
generators/common.ts, keying each interface by name. -/
def createInterfacesMap (interfaces : List GraphQLInterfaceObject) : InterfacesMap :=
  buildMap (fun i => i.name) (fun i => i.implementors) interfaces

/-- Modelled from the spec (sections 2 and 4.1): createUnionsMap of
generators/common.ts, keying each union by name. -/
def createUnionsMap (unions : List GraphQLUnionObject) : UnionsMap :=
  buildMap (fun u => u.name) (fun u => u.types) unions

/-! ### Helpers imported by generator.ts from common.ts and utils.ts

These functions live in generators/common.ts and utils.ts, which are not
among the given sources; each is modelled from the specification. -/

/-- Modelled from the spec (section 4.2): getModelName of
generators/common.ts looks a type definition up in the ModelBinding and
falls back to the caller-supplied marker when unbound. -/
def getModelName (td : GraphQLTypeDefinition) (mm : ModelMap) (fallback : String) : String :=
  match objGet mm td.name with
  | some m => m
  | none => fallback

/-- Modelled from the spec (section 6): getContextName of
generators/common.ts, the configured context type name or the default
identifier when no context is configured. -/
def getContextName (context : Option ContextDefinition) : String :=
  match context with
  | some c => c.interfaceName
  | none => "Context"

/-- Modelled from utils.ts (not among the given sources): upperFirst
capitalises the first character of a string. -/
def upperFirst (s : String) : String :=
  match s.data with
  | [] => ""
  | c :: cs => String.mk (Char.toUpper c :: cs)

/-- Modelled from the spec (sections 4.3 and 4.4): `union` of
generators/common.ts joins type expressions into a TypeScript union type. -/
def union (xs : List String) : String := joinWith (" | ") xs

/-- Modelled from the spec (section 4.2, return position; glossary, deferred
form): resolverReturnType of generators/common.ts widens a return type to
also accept a deferred computation of it. -/
def resolverReturnType (returnType : String) : String :=
  returnType ++ " | Promise<" ++ returnType ++ ">"

/-- Modelled from the spec (section 4.2): the conventional target-language
equivalent of a scalar name. -/
def scalarTSType (n : String) : String :=
  if n = "ID" ∨ n = "String" then "string"
  else if n = "Int" ∨ n = "Float" then "number"
  else if n = "Boolean" then "boolean"
  else "unknown"

/-- Modelled from the spec (section 4.2): printFieldLikeType of
generators/common.ts resolves one field-or-argument type reference.  In
return position it yields the bare type expression (nullable as a union with
null); in declaration position it yields a `name: type` member, nullable as
an optional member. -/
def printFieldLikeType (field : GraphQLTypeField) (mm : ModelMap)
    (_im : InterfacesMap) (_um : UnionsMap) (isReturn : Bool) : String :=
  let base :=
    if field.type.isScalar then scalarTSType field.type.name
    else if field.type.isEnum then field.type.name
    else if field.type.isInput then field.type.name
    else
      match objGet mm field.type.name with
      | some m => m
      | none => "unknown"
  let core := if field.type.isArray then base ++ "[]" else base
  let full := if field.type.isRequired then core else core ++ " | null"
  if isReturn then full
  else field.name ++ (if field.type.isRequired then "" else "?") ++ ": " ++ full

/-- Modelled from the spec (sections 4.1 and 4.5): getDistinctInputTypes of
generators/common.ts deduplicates (first occurrence wins) the input type
names the Index Builder associated with an object type. -/
def getDistinctInputTypes (type : GraphQLTypeObject)
    (typeToInputTypeAssociation : List (String × List String))
    (_inputTypesMap : List (String × GraphQLTypeObject)) : List String :=
  dedupFirst ((objGet typeToInputTypeAssociation type.name).getD [])

/-- Modelled from the spec (sections 1 and 4.5): renderDefaultResolvers of
generators/common.ts is an external pass-through emitting convenience
default-resolver declarations; its content is outside the core. -/
def renderDefaultResolvers (type : GraphQLTypeObject) (_args : GenerateArgs)
    (variableName : String) : String :=
  "export const " ++ variableName ++ " = \x7b " ++
    joinWith (", ") (type.fields.map (fun f => f.name ++ ": true")) ++ " \x7d"

/-- Modelled from the spec (section 1): enum declaration emission is an
external collaborator; a minimal rendering standing in for renderEnums of
generators/common.ts. -/
def renderEnums (args : GenerateArgs) : String :=
  joinWith eol (args.enums.map (fun e =>
    "export type " ++ e.name ++ " = " ++ union (e.values.map (fun v => "\x22" ++ v ++ "\x22"))))

/-! ### generator.ts itself

Each definition below embeds the function of the same name from
src/packages/graphqlgen/src/generators/typescript/generator.ts.  TypeScript
template literals become explicit string concatenations; literal braces are
written with hexadecimal escapes.  `console.log` output is modelled as an
explicit second component of the result where it occurs. -/

/-- The diagnostic printed by `format` when the downstream formatter throws
(generator.ts lines 39-43). -/
def formatErrorMessage (e : String) : String :=
  "There is a syntax error in generated code, unformatted code printed, error: " ++ e

/-- Embeds `format` (generator.ts lines 32-46).  The external prettier
formatter (with its options already applied) is abstracted as a fallible
function argument; the `catch` branch returns the input code unchanged and
the emitted `console.log` diagnostic is returned as the second component. -/
def format (formatter : String → Except String String) (code : String) :
    String × List String :=
  match formatter code with
  | .ok formatted => (formatted, [])
  | .error e => (code, [formatErrorMessage e])

/-- Embeds the `inputTypesMap` construction inside `generate` (generator.ts
lines 50-57): input types keyed by name via the reduce-with-spread idiom. -/
def inputTypesMapOf (types : List GraphQLTypeObject) : List (String × GraphQLTypeObject) :=
  buildMap (fun t => t.name) (fun t => t) (types.filter (fun t => t.type.isInput))

/-- The input type names directly referenced by the arguments of a type's
fields: the `[].concat(...type.fields.map(...))` expression of generator.ts
lines 71-77. -/
def directInputRefs (type : GraphQLTypeObject) : List String :=
  (type.fields.map (fun field =>
    (field.arguments.filter (fun arg => arg.type.isInput)).map (fun arg => arg.type.name))).flatten

/-- The filter of the `typeToInputTypeAssociation` construction (generator.ts
lines 61-67): an object type having at least one field with an input-typed
argument. -/
def hasInputArgs (t : GraphQLTypeObject) : Bool :=
  t.type.isObject &&
    decide ((t.fields.filter (fun field =>
      decide ((field.arguments.filter (fun arg => arg.type.isInput)).length > 0))).length > 0)

/-- Embeds the `typeToInputTypeAssociation` construction inside `generate`
(generator.ts lines 60-79): object types having at least one field with an
input-typed argument, keyed by name, each mapped to the list of input type
names its fields' arguments reference. -/
def typeToInputTypeAssociationOf (types : List GraphQLTypeObject) :
    List (String × List String) :=
  buildMap (fun t => t.name) directInputRefs (types.filter hasInputArgs)

/-- Embeds `renderImports` (generator.ts lines 124-153); the grouping of
model imports by path uses metadata not under src/, so the import block is
modelled from the spec (section 1 excludes import emission from the core).
The no-context fallback `type Context = any` follows the source. -/
def renderImports (args : GenerateArgs) : String :=
  let imports := "import \x7b " ++
    joinWith (", ") (List.map (fun p => p.2) args.modelMap) ++ " \x7d from \x27./models\x27"
  match args.context with
  | some c =>
    "import \x7b " ++ c.interfaceName ++ " \x7d from \x27" ++ c.contextPath ++ "\x27" ++
      eol ++ imports
  | none => imports ++ eol ++ "type " ++ getContextName none ++ " = any"

/-- Embeds `renderHeader` (generator.ts lines 108-122). -/
def renderHeader (args : GenerateArgs) (hasPolymorphicObjects : Bool) : String :=
  let imports :=
    if hasPolymorphicObjects then ["GraphQLResolveInfo", "GraphQLIsTypeOfFn"]
    else ["GraphQLResolveInfo"]
  "\n// Code generated by github.com/prisma/graphqlgen, DO NOT EDIT.\n\nimport \x7b " ++
    joinWith (", ") imports ++ " \x7d from \x27graphql\x27\n" ++ renderImports args ++ "\n  "

/-- Embeds `renderStringConstant` (generator.ts line 273). -/
def renderStringConstant (x : String) : String := "\x22" ++ x ++ "\x22"

/-- Embeds `renderTypeResolveTypeResolver` (generator.ts lines 248-271): the
discriminating `__resolveType` signature for an interface or union.  The
source's for-loop pushing into `modelNames` and `gqlObjectNameTypes` is the
fold below. -/
def renderTypeResolveTypeResolver (abstractType : GraphQLAbstractType)
    (args : GenerateArgs) : String :=
  let gqlObjects : List GraphQLTypeDefinition :=
    match abstractType with
    | .ifc i => i.implementors
    | .uni u => u.types
  let acc := gqlObjects.foldl
    (fun (acc : List String × List String) gqlObj =>
      (acc.1 ++ [getModelName gqlObj args.modelMap ("unknown")],
       acc.2 ++ [renderStringConstant gqlObj.name]))
    ([], [])
  "\n  (\n    value: " ++ union acc.1 ++ ",\n    context: " ++ getContextName args.context ++
    ",\n    info: GraphQLResolveInfo\n  ) => " ++ resolverReturnType (union acc.2) ++ "\n  "

/-- Embeds `renderInputArgInterface` (generator.ts lines 418-442): the
`Args<FieldName>` record, or the empty string for a field without
arguments.  The source casts each argument to a field before passing it to
printFieldLikeType; the cast carries no argument list. -/
def renderInputArgInterface (field : GraphQLTypeField) (mm : ModelMap)
    (im : InterfacesMap) (um : UnionsMap) : String :=
  if field.arguments.length = 0 then ""
  else
    "\n  export interface Args" ++ upperFirst field.name ++ " \x7b\n    " ++
      joinWith eol (field.arguments.map (fun arg =>
        printFieldLikeType ⟨arg.name, arg.type, []⟩ mm im um false)) ++ "\n  \x7d\n  "

/-- Embeds `renderInputArgInterfaces` (generator.ts lines 405-416). -/
def renderInputArgInterfaces (type : GraphQLObjectOrInterface) (mm : ModelMap)
    (im : InterfacesMap) (um : UnionsMap) : String :=
  joinWith eol (type.fields.map (fun field => renderInputArgInterface field mm im um))

/-- Embeds `renderInterfaceNamespace` (generator.ts lines 226-246): the
declaration group of an interface type, whose `Type` contract has a
mandatory `__resolveType` member. -/
def renderInterfaceNamespace (graphQLTypeObject : GraphQLInterfaceObject)
    (im : InterfacesMap) (um : UnionsMap) (args : GenerateArgs) : String :=
  "    export namespace " ++ graphQLTypeObject.name ++ "Resolvers \x7b\n      " ++
    renderInputArgInterfaces (.ifc graphQLTypeObject) args.modelMap im um ++
    "\n\n      export interface Type \x7b\n        __resolveType: " ++
    renderTypeResolveTypeResolver (.ifc graphQLTypeObject) args ++
    "\n      \x7d\n    \x7d\n  "

/-- Embeds `renderUnionNamespace` (generator.ts lines 275-289): the
declaration group of a union type, whose `Type` contract has an optional
`__resolveType` member. -/
def renderUnionNamespace (graphQLTypeObject : GraphQLUnionObject)
    (args : GenerateArgs) : String :=
  "    export namespace " ++ graphQLTypeObject.name ++
    "Resolvers \x7b\n      export interface Type \x7b\n        __resolveType?: " ++
    renderTypeResolveTypeResolver (.uni graphQLTypeObject) args ++
    "\n      \x7d\n    \x7d\n  "

/-- The body of the for-in loop of `renderIsTypeOfFunctionInterface`
(generator.ts lines 367-371): REPLACE the accumulated possible-type list by
the member list of the current union when it contains the owner's name, so
after the loop the last matching union wins. -/
def unionLoopBody (um : UnionsMap) (tname : String)
    (possibleTypes : List GraphQLTypeDefinition) (unionName : String) :
    List GraphQLTypeDefinition :=
  match objGet um unionName with
  | some members =>
    if members.any (fun unionType => unionType.name = tname) then members
    else possibleTypes
  | none => possibleTypes

/-- The whole for-in loop: fold the body over the union map's keys in
insertion order. -/
def isTypeOfUnionLoop (um : UnionsMap) (tname : String)
    (init : List GraphQLTypeDefinition) : List GraphQLTypeDefinition :=
  (List.map Prod.fst um).foldl (unionLoopBody um tname) init

/-- Embeds the `possibleTypes` computation of
`renderIsTypeOfFunctionInterface` (generator.ts lines 352-371): for a
non-interface owner, the concatenated implementor lists of the interfaces it
declares, then the union loop above.  A missing interfaces-map entry would be
a structural miss (spec, section 7, an upstream defect); it is modelled as
the empty list. -/
def possibleTypesOf (type : GraphQLObjectOrInterface) (im : InterfacesMap)
    (um : UnionsMap) : List GraphQLTypeDefinition :=
  let fromInterfaces : List GraphQLTypeDefinition :=
    if !type.typeDef.isInterface then
      match type with
      | .obj o =>
        match o.implements with
        | some interfaceNames =>
          interfaceNames.foldl
            (fun obj interfaceName => obj ++ ((objGet im interfaceName).getD [])) []
        | none => []
      | .ifc _ => []
    else []
  isTypeOfUnionLoop um type.name fromInterfaces

/-- Embeds `renderIsTypeOfFunctionInterface` (generator.ts lines 345-380):
the optional `__isTypeOf` predicate member, emitted only when the computed
possible-type list is non-empty. -/
def renderIsTypeOfFunctionInterface (type : GraphQLObjectOrInterface)
    (mm : ModelMap) (im : InterfacesMap) (um : UnionsMap)
    (context : Option ContextDefinition) : String :=
  let possibleTypes := possibleTypesOf type im um
  if possibleTypes.length = 0 then ""
  else
    "    __isTypeOf?: GraphQLIsTypeOfFn<" ++
      joinWith (" | ") (possibleTypes.map (fun possibleType =>
        getModelName possibleType mm ("unknown"))) ++ ", " ++
      getContextName context ++ ">;"

/-- The declaration rendered for one associated input type name
(generator.ts lines 396-400).  The JS template interpolates the mapped field
array directly, so its members are joined with commas.  A missing
input-types-map entry would be a structural miss (spec, section 7); it is
modelled as an empty declaration. -/
def renderOneInputTypeInterface (mm : ModelMap) (im : InterfacesMap)
    (um : UnionsMap) (inputTypesMap : List (String × GraphQLTypeObject))
    (typeAssociation : String) : String :=
  match objGet inputTypesMap typeAssociation with
  | some inputType =>
    "export interface " ++ inputType.name ++ " \x7b\n      " ++
      joinWith (",") (inputType.fields.map (fun field =>
        printFieldLikeType field mm im um false)) ++ "\n    \x7d"
  | none => ""

/-- Embeds `renderInputTypeInterfaces` (generator.ts lines 382-403): one
`export interface` declaration per distinct associated input type, or the
empty string when the association has no entry for the type. -/
def renderInputTypeInterfaces (type : GraphQLTypeObject) (mm : ModelMap)
    (im : InterfacesMap) (um : UnionsMap)
    (typeToInputTypeAssociation : List (String × List String))
    (inputTypesMap : List (String × GraphQLTypeObject)) : String :=
  match objGet typeToInputTypeAssociation type.name with
  | none => ""
  | some _ =>
    joinWith eol
      ((getDistinctInputTypes type typeToInputTypeAssociation inputTypesMap).map
        (renderOneInputTypeInterface mm im um inputTypesMap))

/-- The names of the input-type declarations emitted inside an object type's
declaration group: the same pipeline as `renderInputTypeInterfaces`, keeping
the declared interface name of each emitted declaration. -/
def declaredInputTypeNames (types : List GraphQLTypeObject)
    (type : GraphQLTypeObject) : List String :=
  let typeToInputTypeAssociation := typeToInputTypeAssociationOf types
  let inputTypesMap := inputTypesMapOf types
  match objGet typeToInputTypeAssociation type.name with
  | none => []
  | some _ =>
    (getDistinctInputTypes type typeToInputTypeAssociation inputTypesMap).map
      (fun typeAssociation =>
        match objGet inputTypesMap typeAssociation with
        | some inputType => inputType.name
        | none => "undefined")

/-- Embeds the `parent` determination of `renderTypeResolver` (generator.ts
lines 508-518): the joined implementor models for an interface owner, the
owner's own model otherwise, with the explicit undefined marker as
fallback. -/
def renderTypeResolverParent (type : GraphQLObjectOrInterface) (mm : ModelMap)
    (im : InterfacesMap) : String :=
  if type.typeDef.isInterface then
    joinWith (" | ") (((objGet im type.name).getD []).map (fun implType =>
      getModelName implType mm ("undefined")))
  else getModelName type.typeDef mm ("undefined")

/-- Embeds the `params` template of `renderTypeResolver` (generator.ts lines
520-529): the (parent, args, ctx, info) parameter list; the args parameter is
the named `Args<FieldName>` record when the field has arguments and the empty
record type otherwise. -/
def renderTypeResolverParams (field : GraphQLTypeField)
    (type : GraphQLObjectOrInterface) (mm : ModelMap) (im : InterfacesMap)
    (context : Option ContextDefinition) : String :=
  "\n  (\n    parent: " ++ renderTypeResolverParent type mm im ++ ",\n    args: " ++
    (if field.arguments.length > 0 then "Args" ++ upperFirst field.name else "\x7b\x7d") ++
    ",\n    ctx: " ++ getContextName context ++ ",\n    info: GraphQLResolveInfo,\n  )\n  "

/-- The subscription branch of `renderTypeResolver` (generator.ts lines
538-547): the record with a mandatory `subscribe` member returning a deferred
asynchronous iterator and an optional `resolve` member. -/
def subscriptionResolverShape (params returnType : String) : String :=
  "\n    \x7b\n      subscribe: " ++ params ++ " => " ++
    resolverReturnType ("AsyncIterator<" ++ returnType ++ ">") ++
    "\n      resolve?: " ++ params ++ " => " ++ resolverReturnType returnType ++
    "\n    \x7d\n    "

/-- The `DelegatedParentResolver` record of `renderTypeResolver`
(generator.ts lines 551-556). -/
def delegatedParentResolverShape (func : String) : String :=
  "\n    \x7b\n      fragment: string\n      resolver: " ++ func ++ "\n    \x7d\n  "

/-- The general branch of `renderTypeResolver` (generator.ts lines 549-560):
the union of the plain function form and the delegated form. -/
def generalResolverShape (params returnType : String) : String :=
  union ["(" ++ params ++ " => " ++ resolverReturnType returnType ++ ")",
         delegatedParentResolverShape (params ++ " => " ++ resolverReturnType returnType)]

/-- Embeds `renderTypeResolver` (generator.ts lines 500-561): the resolver
contract of one field, choosing the subscription record shape exactly when
the owning type's name is the literal string Subscription. -/
def renderTypeResolver (field : GraphQLTypeField) (type : GraphQLObjectOrInterface)
    (mm : ModelMap) (im : InterfacesMap) (um : UnionsMap)
    (context : Option ContextDefinition) : String :=
  let params := renderTypeResolverParams field type mm im context
  let returnType := printFieldLikeType field mm im um true
  if type.name = "Subscription" then subscriptionResolverShape params returnType
  else generalResolverShape params returnType

/-- Embeds `renderResolverFunctionInterfaces` (generator.ts lines 444-464). -/
def renderResolverFunctionInterfaces (type : GraphQLTypeObject) (mm : ModelMap)
    (im : InterfacesMap) (um : UnionsMap)
    (context : Option ContextDefinition) : String :=
  joinWith eol (type.fields.map (fun field =>
    "export type " ++ upperFirst field.name ++ "Resolver = " ++
      renderTypeResolver field (.obj type) mm im um context))

/-- Embeds `renderResolverTypeInterface` (generator.ts lines 466-498). -/
def renderResolverTypeInterface (type : GraphQLObjectOrInterface) (mm : ModelMap)
    (im : InterfacesMap) (um : UnionsMap) (context : Option ContextDefinition)
    (interfaceName : String) : String :=
  "\n  export interface " ++ interfaceName ++ " \x7b\n    " ++
    joinWith eol (type.fields.map (fun field =>
      field.name ++ ": " ++ renderTypeResolver field type mm im um context)) ++
    "\n      " ++ renderIsTypeOfFunctionInterface type mm im um context ++ "\n  \x7d\n  "

/-- Embeds `renderNamespace` (generator.ts lines 291-343): the declaration
group of one object type. -/
def renderNamespace (graphQLTypeObject : GraphQLTypeObject) (im : InterfacesMap)
    (um : UnionsMap) (typeToInputTypeAssociation : List (String × List String))
    (inputTypesMap : List (String × GraphQLTypeObject))
    (args : GenerateArgs) : String :=
  "    export namespace " ++ graphQLTypeObject.name ++ "Resolvers \x7b\n\n    " ++
    (if args.defaultResolversEnabled then
      renderDefaultResolvers graphQLTypeObject args ("defaultResolvers")
     else "") ++
    "\n\n    " ++ renderInputTypeInterfaces graphQLTypeObject args.modelMap im um
      typeToInputTypeAssociation inputTypesMap ++
    "\n\n    " ++ renderInputArgInterfaces (.obj graphQLTypeObject) args.modelMap im um ++
    "\n\n    " ++ renderResolverFunctionInterfaces graphQLTypeObject args.modelMap im um
      args.context ++
    "\n\n    " ++ renderResolverTypeInterface (.obj graphQLTypeObject) args.modelMap im um
      args.context ("Type") ++
    "\n\n    " ++ "" ++ "\n  \x7d\n  "

/-- Embeds `renderObjectNamespaces` (generator.ts lines 190-210). -/
def renderObjectNamespaces (args : GenerateArgs) (im : InterfacesMap) (um : UnionsMap)
    (typeToInputTypeAssociation : List (String × List String))
    (inputTypesMap : List (String × GraphQLTypeObject)) : String :=
  joinWith eol ((args.types.filter (fun t => t.type.isObject)).map (fun type =>
    renderNamespace type im um typeToInputTypeAssociation inputTypesMap args))

/-- Embeds `renderInterfaceNamespaces` (generator.ts lines 212-220). -/
def renderInterfaceNamespaces (args : GenerateArgs) (im : InterfacesMap)
    (um : UnionsMap) : String :=
  joinWith eol (args.interfaces.map (fun type => renderInterfaceNamespace type im um args))

/-- Embeds `renderUnionNamespaces` (generator.ts lines 222-224). -/
def renderUnionNamespaces (args : GenerateArgs) : String :=
  joinWith eol (args.unions.map (fun type => renderUnionNamespace type args))

/-- Embeds `renderNamespaces` (generator.ts lines 168-188). -/
def renderNamespaces (args : GenerateArgs) (im : InterfacesMap) (um : UnionsMap)
    (typeToInputTypeAssociation : List (String × List String))
    (inputTypesMap : List (String × GraphQLTypeObject)) : String :=
  "    " ++ renderObjectNamespaces args im um typeToInputTypeAssociation inputTypesMap ++
    "\n\n    " ++ renderInterfaceNamespaces args im um ++
    "\n\n    " ++ renderUnionNamespaces args ++ "\n  "

/-- The entry list of the aggregate `Resolvers` declaration (generator.ts
lines 566-572): a required entry per object type, then an optional entry per
interface and per union type. -/
def renderResolversEntries (args : GenerateArgs) : List String :=
  ((args.types.filter (fun t => t.type.isObject)).map (fun type =>
    type.name ++ ": " ++ type.name ++ "Resolvers.Type")) ++
  (args.interfaces.map (fun type => type.name ++ "?: " ++ type.name ++ "Resolvers.Type")) ++
  (args.unions.map (fun type => type.name ++ "?: " ++ type.name ++ "Resolvers.Type"))

/-- Embeds `renderResolvers` (generator.ts lines 563-575). -/
def renderResolvers (args : GenerateArgs) : String :=
  "export interface Resolvers \x7b\n  " ++ joinWith eol (renderResolversEntries args) ++
    "\n\x7d\n  "

/-- Embeds `generate` (generator.ts lines 48-102): builds the three indexes
and concatenates header, enums, declaration groups and the aggregate
Resolvers declaration. -/
def generate (args : GenerateArgs) : String :=
  let inputTypesMap := inputTypesMapOf args.types
  let typeToInputTypeAssociation := typeToInputTypeAssociationOf args.types
  let interfacesMap := createInterfacesMap args.interfaces
  let unionsMap := createUnionsMap args.unions
  let hasPolymorphicObjects :=
    decide ((List.map Prod.fst interfacesMap).length > 0) ||
    decide ((List.map Prod.fst unionsMap).length > 0)
  "  " ++ renderHeader args hasPolymorphicObjects ++ "\n\n  " ++ renderEnums args ++
    "\n\n  " ++ renderNamespaces args interfacesMap unionsMap
      typeToInputTypeAssociation inputTypesMap ++
    "\n\n  " ++ renderResolvers args ++ "\n\n  "

/-! ### Supporting lemmas -/

theorem string_data_injective (s t : String) (h : s.data = t.data) : s = t := by
  cases s; cases t; exact congrArg String.mk h

theorem head_first (s t : String) (c : Char) (h : s.data.head? = some c) :
    (s ++ t).data.head? = some c := by
  rw [String.data_append]
  cases hs : s.data with
  | nil => rw [hs] at h; cases h
  | cons x xs =>
    rw [hs] at h
    simpa using h

theorem ne_empty_of_head (s : String) (c : Char) (h : s.data.head? = some c) :
    s ≠ "" := by
  intro he
  rw [he] at h
  cases h

theorem subscriptionResolverShape_head (p r : String) :
    (subscriptionResolverShape p r).data.head? = some '\n' := by
  unfold subscriptionResolverShape
  repeat apply head_first
  rfl

theorem generalResolverShape_head (p r : String) :
    (generalResolverShape p r).data.head? = some '(' := by
  simp only [generalResolverShape, union, joinWith]
  repeat apply head_first
  rfl

theorem subscription_ne_general (p r p2 r2 : String) :
    subscriptionResolverShape p r ≠ generalResolverShape p2 r2 := by
  intro h
  have h1 := subscriptionResolverShape_head p r
  rw [h, generalResolverShape_head p2 r2] at h1
  exact absurd (Option.some.inj h1) (by decide)

theorem objSet_fresh {β : Type} (m : List (String × β)) (k : String) (v : β)
    (h : k ∉ List.map Prod.fst m) : objSet m k v = m ++ [(k, v)] := by
  have hcond : ¬ (m.any (fun p => p.1 = k) = true) := by
    simp only [List.any_eq_true, decide_eq_true_eq]
    rintro ⟨p, hp, rfl⟩
    exact h (List.mem_map_of_mem Prod.fst hp)
  simp only [objSet]
  rw [if_neg hcond]

theorem buildMap_pairs {α β : Type} (key : α → String) (val : α → β) :
    ∀ (l : List α) (m : List (String × β)),
      (∀ a ∈ l, key a ∉ List.map Prod.fst m) → (l.map key).Nodup →
      l.foldl (fun m a => objSet m (key a) (val a)) m =
        m ++ l.map (fun a => (key a, val a)) := by
  intro l
  induction l with
  | nil => intro m _ _; simp
  | cons x xs ih =>
    intro m hfresh hnd
    rw [List.map_cons, List.nodup_cons] at hnd
    simp only [List.foldl_cons]
    rw [objSet_fresh m (key x) (val x) (hfresh x (List.mem_cons_self x xs))]
    have hfresh2 : ∀ a ∈ xs, key a ∉ List.map Prod.fst (m ++ [(key x, val x)]) := by
      intro a ha
      rw [List.map_append, List.mem_append]
      rintro (hm | hone)
      · exact hfresh a (List.mem_cons_of_mem x ha) hm
      · have hkey : key a = key x := by simpa using hone
        exact hnd.1 (hkey ▸ List.mem_map_of_mem key ha)
    rw [ih (m ++ [(key x, val x)]) hfresh2 hnd.2]
    simp

theorem objGet_buildMap {α β : Type} (key : α → String) (val : α → β)
    (l : List α) (hnd : (l.map key).Nodup) (n : String) :
    objGet (buildMap key val l) n = (l.find? (fun a => key a = n)).map val := by
  unfold buildMap
  rw [buildMap_pairs key val l [] (by simp) hnd]
  simp only [List.nil_append]
  unfold objGet
  rw [List.find?_map]
  rw [Option.map_map]
  rfl

theorem find?_key_self {α : Type} (key : α → String) :
    ∀ (l : List α), (l.map key).Nodup → ∀ a ∈ l,
      l.find? (fun x => key x = key a) = some a := by
  intro l
  induction l with
  | nil => intro _ a ha; cases ha
  | cons b bs ih =>
    intro hnd a ha
    rw [List.map_cons, List.nodup_cons] at hnd
    by_cases hb : key b = key a
    · have hab : a = b := by
        rcases List.mem_cons.mp ha with rfl | hmem
        · rfl
        · have : key b ∈ List.map key bs := by
            rw [hb]; exact List.mem_map_of_mem key hmem
          exact absurd this hnd.1
      subst hab
      rw [List.find?_cons_of_pos]
      simp
    · have ha2 : a ∈ bs := by
        rcases List.mem_cons.mp ha with rfl | hmem
        · exact absurd rfl hb
        · exact hmem
      rw [List.find?_cons_of_neg]
      · exact ih hnd.2 a ha2
      · simp [hb]

theorem find?_filter_none {α : Type} (key : α → String) (p : α → Bool)
    (l : List α) (hnd : (l.map key).Nodup) (a : α) (ha : a ∈ l)
    (hpa : ¬ p a = true) :
    (l.filter p).find? (fun x => key x = key a) = none := by
  rw [List.find?_eq_none]
  intro x hx
  simp only [decide_eq_true_eq]
  intro hkey
  have hx2 := List.mem_of_mem_filter hx
  have hpx := List.of_mem_filter hx
  have hxa : x = a := List.inj_on_of_nodup_map hnd hx2 ha hkey
  subst hxa
  exact hpa hpx

theorem objGet_cons_self {β : Type} (k0 : String) (v0 : β) (m : List (String × β)) :
    objGet ((k0, v0) :: m) k0 = some v0 := by
  unfold objGet
  rw [List.find?_cons_of_pos]
  · rfl
  · simp

theorem objGet_cons_ne {β : Type} (k0 : String) (v0 : β) (m : List (String × β))
    (k : String) (h : k ≠ k0) : objGet ((k0, v0) :: m) k = objGet m k := by
  unfold objGet
  rw [List.find?_cons_of_neg]
  simp only [decide_eq_true_eq]
  exact fun he => h (Eq.symm he)

/-- The union of the unions map whose member list contains the given name and
that comes last in key insertion order. -/
def lastMatchingUnion (um : UnionsMap) (tname : String) :
    Option (String × List GraphQLTypeDefinition) :=
  um.reverse.find? (fun kv => kv.2.any (fun u => u.name = tname))

theorem unionLoopBody_congr (m1 m2 : UnionsMap) (tname : String) (k : String)
    (h : objGet m1 k = objGet m2 k) (acc : List GraphQLTypeDefinition) :
    unionLoopBody m1 tname acc k = unionLoopBody m2 tname acc k := by
  unfold unionLoopBody
  rw [h]

theorem foldl_unionLoopBody_congr (m1 m2 : UnionsMap) (tname : String) :
    ∀ (ks : List String), (∀ k ∈ ks, objGet m1 k = objGet m2 k) →
      ∀ init, ks.foldl (unionLoopBody m1 tname) init = ks.foldl (unionLoopBody m2 tname) init := by
  intro ks
  induction ks with
  | nil => intro _ init; rfl
  | cons k ks ih =>
    intro hag init
    simp only [List.foldl_cons]
    rw [unionLoopBody_congr m1 m2 tname k (hag k (List.mem_cons_self k ks)) init]
    exact ih (fun k2 h2 => hag k2 (List.mem_cons_of_mem k h2)) _

theorem isTypeOfUnionLoop_shift (k0 : String) (v0 : List GraphQLTypeDefinition)
    (rest : UnionsMap) (tname : String) (hk : k0 ∉ List.map Prod.fst rest)
    (init : List GraphQLTypeDefinition) :
    isTypeOfUnionLoop ((k0, v0) :: rest) tname init =
      isTypeOfUnionLoop rest tname
        (if v0.any (fun u => u.name = tname) then v0 else init) := by
  unfold isTypeOfUnionLoop
  simp only [List.map_cons, List.foldl_cons]
  have hbody : unionLoopBody ((k0, v0) :: rest) tname init k0 =
      (if v0.any (fun u => u.name = tname) then v0 else init) := by
    unfold unionLoopBody
    rw [objGet_cons_self]
  rw [hbody]
  apply foldl_unionLoopBody_congr
  intro k hkmem
  have : k ≠ k0 := fun he => hk (he ▸ hkmem)
  exact objGet_cons_ne k0 v0 rest k this

theorem isTypeOfUnionLoop_eq_last (tname : String) :
    ∀ (um : UnionsMap), (List.map Prod.fst um).Nodup → ∀ init,
      isTypeOfUnionLoop um tname init =
        match lastMatchingUnion um tname with
        | some kv => kv.2
        | none => init := by
  intro um
  induction um with
  | nil => intro _ init; rfl
  | cons hd rest ih =>
    obtain ⟨k0, v0⟩ := hd
    intro hnd init
    rw [List.map_cons, List.nodup_cons] at hnd
    rw [isTypeOfUnionLoop_shift k0 v0 rest tname hnd.1 init, ih hnd.2]
    have hl : lastMatchingUnion ((k0, v0) :: rest) tname =
        (lastMatchingUnion rest tname).or
          (if v0.any (fun u => u.name = tname) then some (k0, v0) else none) := by
      unfold lastMatchingUnion
      rw [List.reverse_cons, List.find?_append]
      congr 1
      by_cases hv : v0.any (fun u => u.name = tname)
      · rw [List.find?_cons_of_pos, if_pos hv]
        exact hv
      · rw [List.find?_cons_of_neg, if_neg hv]
        · rfl
        · simpa using hv
    rw [hl]
    cases hrest : lastMatchingUnion rest tname with
    | some kv => rfl
    | none =>
      by_cases hv : v0.any (fun u => u.name = tname)
      · simp [hv, Option.or]
      · simp [hv, Option.or]

theorem renderTypeResolveTypeResolver_loop (mm : ModelMap) :
    ∀ (objs : List GraphQLTypeDefinition) (init : List String × List String),
      objs.foldl
        (fun (acc : List String × List String) gqlObj =>
          (acc.1 ++ [getModelName gqlObj mm ("unknown")],
           acc.2 ++ [renderStringConstant gqlObj.name])) init =
      (init.1 ++ objs.map (fun o => getModelName o mm ("unknown")),
       init.2 ++ objs.map (fun o => renderStringConstant o.name)) := by
  intro objs
  induction objs with
  | nil => intro init; simp
  | cons o os ih =>
    intro init
    simp only [List.foldl_cons, List.map_cons]
    rw [ih]
    simp

/-- The required aggregate entry emitted for an object type (generator.ts
line 569). -/
def requiredResolverEntry (n : String) : String := n ++ ": " ++ n ++ "Resolvers.Type"

/-- The optional aggregate entry emitted for an interface or union type
(generator.ts lines 570-571). -/
def optionalResolverEntry (n : String) : String := n ++ "?: " ++ n ++ "Resolvers.Type"

theorem requiredResolverEntry_injective : Function.Injective requiredResolverEntry := by
  intro a b h
  have hd := congrArg String.data h
  simp only [requiredResolverEntry, String.data_append] at hd
  have hlen := congrArg List.length hd
  simp only [List.length_append] at hlen
  have hab : a.data.length = b.data.length := by omega
  rw [List.append_assoc, List.append_assoc, List.append_assoc, List.append_assoc] at hd
  exact string_data_injective a b (List.append_inj hd hab).1

theorem optionalResolverEntry_injective : Function.Injective optionalResolverEntry := by
  intro a b h
  have hd := congrArg String.data h
  simp only [optionalResolverEntry, String.data_append] at hd
  have hlen := congrArg List.length hd
  simp only [List.length_append] at hlen
  have hab : a.data.length = b.data.length := by omega
  rw [List.append_assoc, List.append_assoc, List.append_assoc, List.append_assoc] at hd
  exact string_data_injective a b (List.append_inj hd hab).1

theorem requiredResolverEntry_ne_optional (n m : String) :
    requiredResolverEntry n ≠ optionalResolverEntry m := by
  intro h
  have hd := congrArg String.data h
  simp only [requiredResolverEntry, optionalResolverEntry, String.data_append] at hd
  have hlen := congrArg List.length hd
  simp only [List.length_append] at hlen
  have c1 : (": " : String).data.length = 2 := rfl
  have c2 : ("?: " : String).data.length = 3 := rfl
  have c3 : ("Resolvers.Type" : String).data.length = 14 := rfl
  rw [c1, c2, c3] at hlen
  omega

/-! ### Concrete sample inputs used by counterexamples and witnesses -/

/-- A sample field with no arguments and a non-null scalar result. -/
def sampleField : GraphQLTypeField :=
  { name := "events", type := { name := "String", isScalar := true, isRequired := true },
    arguments := [] }

/-- An object type designated as the root subscription type by its flag but
named RootSub rather than Subscription. -/
def subRootObject : GraphQLTypeObject :=
  { name := "RootSub", type := { name := "RootSub", isObject := true },
    fields := [sampleField], isSubscriptionRoot := true }

/-- An object type named Subscription, with the designation flag left off. -/
def subscriptionObject : GraphQLTypeObject :=
  { name := "Subscription", type := { name := "Subscription", isObject := true },
    fields := [sampleField] }

/-- An interface type named Subscription. -/
def subscriptionInterface : GraphQLInterfaceObject :=
  { name := "Subscription", type := { name := "Subscription", isInterface := true },
    fields := [sampleField], implementors := [] }

/-- Unfolding characterisation of renderTypeResolver: the branch on the
owning type's literal name. -/
theorem renderTypeResolver_eq (field : GraphQLTypeField)
    (type : GraphQLObjectOrInterface) (mm : ModelMap) (im : InterfacesMap)
    (um : UnionsMap) (context : Option ContextDefinition) :
    renderTypeResolver field type mm im um context =
      if type.name = "Subscription" then
        subscriptionResolverShape (renderTypeResolverParams field type mm im context)
          (printFieldLikeType field mm im um true)
      else
        generalResolverShape (renderTypeResolverParams field type mm im context)
          (printFieldLikeType field mm im um true) := rfl

/-! ### The claims -/

/-- C1 (amended): renderTypeResolver produces the subscription record shape
(mandatory subscribe member of the standard signature returning a deferred
asynchronous iterator of the result type, optional resolve member of the
same signature returning the result type) for every field whose owning type
is NAMED Subscription, and never the plain-function/delegated choice for
such a type; for every field of an owning type with any other name it
produces the plain-function/delegated choice and never the subscription
record shape.  (The claim as frozen keys the choice on the designated
root-subscription flag; the code keys it on the literal type name, see the
counterexample.) -/
theorem claim1_subscription_shape_amended (field : GraphQLTypeField)
    (type : GraphQLObjectOrInterface) (mm : ModelMap) (im : InterfacesMap)
    (um : UnionsMap) (context : Option ContextDefinition) :
    (type.name = "Subscription" →
      renderTypeResolver field type mm im um context =
        subscriptionResolverShape (renderTypeResolverParams field type mm im context)
          (printFieldLikeType field mm im um true) ∧
      ∀ p r, renderTypeResolver field type mm im um context ≠ generalResolverShape p r) ∧
    (type.name ≠ "Subscription" →
      renderTypeResolver field type mm im um context =
        generalResolverShape (renderTypeResolverParams field type mm im context)
          (printFieldLikeType field mm im um true) ∧
      ∀ p r, renderTypeResolver field type mm im um context ≠ subscriptionResolverShape p r) := by
  constructor
  · intro hn
    rw [renderTypeResolver_eq, if_pos hn]
    exact ⟨rfl, fun p r h => subscription_ne_general _ _ _ _ h⟩
  · intro hn
    rw [renderTypeResolver_eq, if_neg hn]
    exact ⟨rfl, fun p r h => subscription_ne_general p r _ _ h.symm⟩

/-- C1 (counterexample): an object type carrying the root-subscription
designation flag but named RootSub gets the plain-function/delegated shape,
not the subscription record shape, so the choice does not follow the
designation flag. -/
theorem claim1_counterexample :
    subRootObject.isSubscriptionRoot = true ∧
    subRootObject.name ≠ "Subscription" ∧
    renderTypeResolver sampleField (.obj subRootObject) [] [] [] none =
      generalResolverShape
        (renderTypeResolverParams sampleField (.obj subRootObject) [] [] none)
        (printFieldLikeType sampleField [] [] [] true) ∧
    renderTypeResolver sampleField (.obj subRootObject) [] [] [] none ≠
      subscriptionResolverShape
        (renderTypeResolverParams sampleField (.obj subRootObject) [] [] none)
        (printFieldLikeType sampleField [] [] [] true) := by
  refine ⟨rfl, by decide, rfl, ?_⟩
  intro h
  rw [renderTypeResolver_eq,
    if_neg (by decide : ¬ (GraphQLObjectOrInterface.obj subRootObject).name = "Subscription")] at h
  exact subscription_ne_general _ _ _ _ h.symm

/-- C1 (witness): the amended claim applied to a field of an object type
named Subscription. -/
theorem claim1_witness :
    renderTypeResolver sampleField (.obj subscriptionObject) [] [] [] none =
      subscriptionResolverShape
        (renderTypeResolverParams sampleField (.obj subscriptionObject) [] [] none)
        (printFieldLikeType sampleField [] [] [] true) :=
  ((claim1_subscription_shape_amended sampleField (.obj subscriptionObject)
    [] [] [] none).1 rfl).1

/-- C9: the subscription contract shape depends solely on the owning type's
name being exactly the string Subscription: the output is the subscription
record shape if and only if the owning type is named Subscription, and the
root-subscription designation flag on the object type definition has no
effect on the output whatsoever. -/
theorem claim9_subscription_by_name (field : GraphQLTypeField)
    (type : GraphQLObjectOrInterface) (mm : ModelMap) (im : InterfacesMap)
    (um : UnionsMap) (context : Option ContextDefinition) :
    (renderTypeResolver field type mm im um context =
        subscriptionResolverShape (renderTypeResolverParams field type mm im context)
          (printFieldLikeType field mm im um true) ↔
      type.name = "Subscription") ∧
    (∀ (o : GraphQLTypeObject) (b : Bool),
      renderTypeResolver field (.obj { o with isSubscriptionRoot := b }) mm im um context =
        renderTypeResolver field (.obj o) mm im um context) := by
  refine ⟨?_, fun o b => rfl⟩
  rw [renderTypeResolver_eq]
  by_cases hn : type.name = "Subscription"
  · rw [if_pos hn]
    simp [hn]
  · rw [if_neg hn]
    constructor
    · intro h
      exact absurd h.symm (subscription_ne_general _ _ _ _)
    · intro h
      exact absurd h hn

/-- C9 (witness): an interface named Subscription also gets the subscription
record shape. -/
theorem claim9_witness :
    renderTypeResolver sampleField (.ifc subscriptionInterface) [] [] [] none =
      subscriptionResolverShape
        (renderTypeResolverParams sampleField (.ifc subscriptionInterface) [] [] none)
        (printFieldLikeType sampleField [] [] [] true) :=
  ((claim9_subscription_by_name sampleField (.ifc subscriptionInterface)
    [] [] [] none).1).mpr rfl

/-- C7: generate is deterministic — the embedding is a total pure function of
its arguments (the one ambient input of the source, os.EOL, is a platform
constant), so two calls with the same arguments yield identical output. -/
theorem claim7_generate_deterministic (args : GenerateArgs) :
    generate args = generate args := rfl

/-- C8: if the downstream formatter fails to parse the assembled text,
format returns the input text unchanged together with the diagnostic, and if
formatting succeeds it returns the formatter's output with no diagnostic. -/
theorem claim8_format_error_handling (formatter : String → Except String String)
    (code : String) :
    (∀ e, formatter code = Except.error e →
      format formatter code = (code, [formatErrorMessage e])) ∧
    (∀ s, formatter code = Except.ok s → format formatter code = (s, [])) := by
  constructor
  · intro e h
    simp [format, h]
  · intro s h
    simp [format, h]

/-- C8 (witness): a formatter that throws leaves the generated text intact
and emits the diagnostic. -/
theorem claim8_witness :
    format (fun _ => Except.error ("unexpected token")) ("const x = ;") =
      ("const x = ;", [formatErrorMessage ("unexpected token")]) :=
  (claim8_format_error_handling (fun _ => Except.error ("unexpected token"))
    ("const x = ;")).1 ("unexpected token") rfl

/-- A sample field carrying one argument. -/
def argField : GraphQLTypeField :=
  { name := "posts",
    type := { name := "Post", isObject := true, isArray := true, isRequired := true },
    arguments := [{ name := "limit", type := { name := "Int", isScalar := true } }] }

/-- C5: a named Args record declaration is emitted iff the field's argument
list is non-empty, and the resolver contract's args parameter is the named
record exactly then, the empty-record type otherwise. -/
theorem claim5_args_record_presence (field : GraphQLTypeField)
    (type : GraphQLObjectOrInterface) (mm : ModelMap) (im : InterfacesMap)
    (um : UnionsMap) (context : Option ContextDefinition) :
    (renderInputArgInterface field mm im um = "" ↔ field.arguments = []) ∧
    (field.arguments = [] →
      renderTypeResolverParams field type mm im context =
        "\n  (\n    parent: " ++ renderTypeResolverParent type mm im ++
          ",\n    args: " ++ "\x7b\x7d" ++ ",\n    ctx: " ++ getContextName context ++
          ",\n    info: GraphQLResolveInfo,\n  )\n  ") ∧
    (field.arguments ≠ [] →
      renderTypeResolverParams field type mm im context =
        "\n  (\n    parent: " ++ renderTypeResolverParent type mm im ++
          ",\n    args: " ++ ("Args" ++ upperFirst field.name) ++ ",\n    ctx: " ++
          getContextName context ++ ",\n    info: GraphQLResolveInfo,\n  )\n  " ∧
      renderInputArgInterface field mm im um =
        "\n  export interface Args" ++ upperFirst field.name ++ " \x7b\n    " ++
          joinWith eol (field.arguments.map (fun arg =>
            printFieldLikeType ⟨arg.name, arg.type, []⟩ mm im um false)) ++
          "\n  \x7d\n  ") := by
  refine ⟨?_, ?_, ?_⟩
  · by_cases hargs : field.arguments = []
    · simp [renderInputArgInterface, hargs]
    · have hlen : ¬ field.arguments.length = 0 := fun h => hargs (List.length_eq_zero.mp h)
      simp only [renderInputArgInterface]
      rw [if_neg hlen]
      apply iff_of_false
      · apply ne_empty_of_head _ '\n'
        repeat apply head_first
        rfl
      · exact hargs
  · intro h
    simp [renderTypeResolverParams, h]
  · intro h
    have hlen : field.arguments.length > 0 := List.length_pos.mpr h
    have hlen0 : ¬ field.arguments.length = 0 := Nat.pos_iff_ne_zero.mp hlen
    constructor
    · simp [renderTypeResolverParams, hlen]
    · simp only [renderInputArgInterface]
      rw [if_neg hlen0]

/-- C5 (witness): the claim applied to a field with one argument. -/
theorem claim5_witness :
    renderTypeResolverParams argField (.obj subRootObject) [] [] none =
      "\n  (\n    parent: " ++ renderTypeResolverParent (.obj subRootObject) [] [] ++
        ",\n    args: " ++ ("Args" ++ upperFirst argField.name) ++ ",\n    ctx: " ++
        getContextName none ++ ",\n    info: GraphQLResolveInfo,\n  )\n  " :=
  ((claim5_args_record_presence argField (.obj subRootObject) [] [] [] none).2.2
    (by decide)).1

/-- The discriminating resolver signature of the spec (section 4.4): value
parameter typed as the union of the members' backing-model types, returning a
possibly deferred literal concrete member type name. -/
def resolveTypeSignature (modelNames gqlObjectNameTypes : List String)
    (context : Option ContextDefinition) : String :=
  "\n  (\n    value: " ++ union modelNames ++ ",\n    context: " ++
    getContextName context ++ ",\n    info: GraphQLResolveInfo\n  ) => " ++
    resolverReturnType (union gqlObjectNameTypes) ++ "\n  "

/-- C4: every interface declaration group contains a mandatory __resolveType
member and every union declaration group the same member marked optional; in
both cases its signature takes the union of the members' backing-model types
(with context and request-info) and returns, possibly deferred, one of the
literal concrete member type names. -/
theorem claim4_abstract_mandatoriness (i : GraphQLInterfaceObject)
    (u : GraphQLUnionObject) (im : InterfacesMap) (um : UnionsMap)
    (args : GenerateArgs) :
    renderTypeResolveTypeResolver (.ifc i) args =
      resolveTypeSignature
        (i.implementors.map (fun o => getModelName o args.modelMap ("unknown")))
        (i.implementors.map (fun o => renderStringConstant o.name)) args.context ∧
    renderTypeResolveTypeResolver (.uni u) args =
      resolveTypeSignature
        (u.types.map (fun o => getModelName o args.modelMap ("unknown")))
        (u.types.map (fun o => renderStringConstant o.name)) args.context ∧
    (∃ pre post, renderInterfaceNamespace i im um args =
      pre ++ ("__resolveType: " ++ renderTypeResolveTypeResolver (.ifc i) args) ++ post) ∧
    (∃ pre post, renderUnionNamespace u args =
      pre ++ ("__resolveType?: " ++ renderTypeResolveTypeResolver (.uni u) args) ++ post) := by
  refine ⟨?_, ?_, ?_, ?_⟩
  · simp only [renderTypeResolveTypeResolver]
    rw [renderTypeResolveTypeResolver_loop args.modelMap i.implementors ([], [])]
    simp [resolveTypeSignature]
  · simp only [renderTypeResolveTypeResolver]
    rw [renderTypeResolveTypeResolver_loop args.modelMap u.types ([], [])]
    simp [resolveTypeSignature]
  · refine ⟨"    export namespace " ++ i.name ++ "Resolvers \x7b\n      " ++
      renderInputArgInterfaces (.ifc i) args.modelMap im um ++
      "\n\n      export interface Type \x7b\n        ",
      "\n      \x7d\n    \x7d\n  ", ?_⟩
    simp only [renderInterfaceNamespace]
    rw [show ("\n\n      export interface Type \x7b\n        __resolveType: " : String) =
      "\n\n      export interface Type \x7b\n        " ++ "__resolveType: " from rfl]
    simp only [String.append_assoc]
  · refine ⟨"    export namespace " ++ u.name ++
      "Resolvers \x7b\n      export interface Type \x7b\n        ",
      "\n      \x7d\n    \x7d\n  ", ?_⟩
    simp only [renderUnionNamespace]
    rw [show ("Resolvers \x7b\n      export interface Type \x7b\n        __resolveType?: " : String) =
      "Resolvers \x7b\n      export interface Type \x7b\n        " ++ "__resolveType?: " from rfl]
    simp only [String.append_assoc]

/-- A concrete object type definition named A. -/
def defA : GraphQLTypeDefinition := { name := "A", isObject := true }

/-- A concrete object type definition named B. -/
def defB : GraphQLTypeDefinition := { name := "B", isObject := true }

/-- A concrete object type definition named T. -/
def defT : GraphQLTypeDefinition := { name := "T", isObject := true }

/-- A concrete object type T that implements interface I and is a member of
union U. -/
def cexObject : GraphQLTypeObject :=
  { name := "T", type := { name := "T", isObject := true }, fields := [],
    implements := some ["I"] }

/-- An interfaces map where I has implementor A. -/
def cexIm : InterfacesMap := [("I", [defA])]

/-- A unions map where U has members B and T. -/
def cexUm : UnionsMap := [("U", [defB, defT])]

/-- A model binding for A, B and T. -/
def cexMm : ModelMap := [("A", "AModel"), ("B", "BModel"), ("T", "TModel")]

/-- C6 (amended): the optional __isTypeOf member is emitted exactly when the
computed possible-type list is non-empty, and its candidate-value parameter
type is the union of the backing-model types of that computed list — which
is the member list of the last matching union when the type belongs to one,
and only otherwise the implementors of the interfaces the (object) type
implements.  (The claim as frozen takes the union over BOTH sources; the
code replaces the interface-derived list by the union members, see the
counterexample.) -/
theorem claim6_istypeof_amended (type : GraphQLObjectOrInterface) (mm : ModelMap)
    (im : InterfacesMap) (um : UnionsMap) (context : Option ContextDefinition) :
    (renderIsTypeOfFunctionInterface type mm im um context = "" ↔
      possibleTypesOf type im um = []) ∧
    (possibleTypesOf type im um ≠ [] →
      renderIsTypeOfFunctionInterface type mm im um context =
        "    __isTypeOf?: GraphQLIsTypeOfFn<" ++
          joinWith (" | ") ((possibleTypesOf type im um).map (fun possibleType =>
            getModelName possibleType mm ("unknown"))) ++ ", " ++
          getContextName context ++ ">;") := by
  by_cases hp : possibleTypesOf type im um = []
  · constructor
    · simp [renderIsTypeOfFunctionInterface, hp]
    · intro h
      exact absurd hp h
  · have hlen : ¬ (possibleTypesOf type im um).length = 0 := by
      simpa [List.length_eq_zero] using hp
    constructor
    · simp only [renderIsTypeOfFunctionInterface]
      rw [if_neg hlen]
      apply iff_of_false
      · apply ne_empty_of_head _ ' '
        repeat apply head_first
        rfl
      · exact hp
    · intro _
      simp only [renderIsTypeOfFunctionInterface]
      rw [if_neg hlen]

/-- C6 (counterexample): T implements interface I (implementor A, backing
model AModel) and belongs to union U (members B, T); the emitted __isTypeOf
candidate type is BModel | TModel only — AModel, required by the claim's
union over both sources, is absent. -/
theorem claim6_counterexample :
    cexObject.implements = some ["I"] ∧
    possibleTypesOf (.obj cexObject) cexIm [] = [defA] ∧
    renderIsTypeOfFunctionInterface (.obj cexObject) cexMm cexIm cexUm none =
      "    __isTypeOf?: GraphQLIsTypeOfFn<BModel | TModel, Context>;" ∧
    renderIsTypeOfFunctionInterface (.obj cexObject) cexMm cexIm cexUm none ≠
      "    __isTypeOf?: GraphQLIsTypeOfFn<AModel | BModel | TModel, Context>;" := by
  refine ⟨rfl, by decide, by rfl, by decide⟩

/-- C6 (witness): the amended claim applied to the concrete type T. -/
theorem claim6_witness :
    renderIsTypeOfFunctionInterface (.obj cexObject) cexMm cexIm cexUm none =
      "    __isTypeOf?: GraphQLIsTypeOfFn<" ++
        joinWith (" | ") ((possibleTypesOf (.obj cexObject) cexIm cexUm).map
          (fun possibleType => getModelName possibleType cexMm ("unknown"))) ++ ", " ++
        getContextName none ++ ">;" :=
  (claim6_istypeof_amended (.obj cexObject) cexMm cexIm cexUm none).2 (by decide)

/-- C10: when the owning type belongs to at least one union, the possible
types used by renderIsTypeOfFunctionInterface are exactly the member list of
the last matching union in the unions map, and the interfaces map (hence the
implementors of any interfaces the type implements) has no effect on the
result. -/
theorem claim10_union_membership_replaces (type : GraphQLObjectOrInterface)
    (im im2 : InterfacesMap) (um : UnionsMap)
    (hnd : (List.map Prod.fst um).Nodup) (k : String)
    (v : List GraphQLTypeDefinition)
    (hlast : lastMatchingUnion um type.name = some (k, v)) :
    possibleTypesOf type im um = v ∧
    possibleTypesOf type im um = possibleTypesOf type im2 um := by
  have h1 : ∀ (im3 : InterfacesMap), possibleTypesOf type im3 um = v := by
    intro im3
    simp only [possibleTypesOf]
    rw [isTypeOfUnionLoop_eq_last type.name um hnd, hlast]
  exact ⟨h1 im, (h1 im).trans (h1 im2).symm⟩

/-- A unions map with two unions both containing T; the second, U2, is the
last matching one. -/
def umW : UnionsMap := [("U1", [defT]), ("U2", [defT, defB])]

/-- C10 (witness): with two matching unions the later one wins, replacing
both the earlier union's members and the interface-derived implementors. -/
theorem claim10_witness :
    possibleTypesOf (.obj cexObject) cexIm umW = [defT, defB] :=
  (claim10_union_membership_replaces (.obj cexObject) cexIm [] umW (by decide)
    ("U2") ([defT, defB]) (by rfl)).1

theorem directInputRefs_nil (t : GraphQLTypeObject) :
    directInputRefs t = [] ↔
      (t.fields.filter (fun field =>
        decide ((field.arguments.filter (fun arg => arg.type.isInput)).length > 0))).length = 0 := by
  unfold directInputRefs
  constructor
  · intro h
    rw [List.length_eq_zero, List.filter_eq_nil_iff]
    intro f hf
    simp only [decide_eq_true_eq]
    intro hpos
    have hmem :
        ((f.arguments.filter (fun arg => arg.type.isInput)).map (fun arg => arg.type.name)) ∈
          (t.fields.map (fun field =>
            (field.arguments.filter (fun arg => arg.type.isInput)).map
              (fun arg => arg.type.name))) :=
      List.mem_map_of_mem _ hf
    have hnil := List.flatten_eq_nil_iff.mp h _ hmem
    rw [List.map_eq_nil_iff] at hnil
    rw [hnil] at hpos
    exact absurd hpos (by simp)
  · intro h
    rw [List.length_eq_zero, List.filter_eq_nil_iff] at h
    rw [List.flatten_eq_nil_iff]
    intro x hx
    rw [List.mem_map] at hx
    obtain ⟨f, hf, rfl⟩ := hx
    have hfnot := h f hf
    simp only [decide_eq_true_eq] at hfnot
    have hnil : (f.arguments.filter (fun arg => arg.type.isInput)) = [] := by
      rw [← List.length_eq_zero]
      omega
    rw [hnil]
    rfl

theorem hasInputArgs_iff (t : GraphQLTypeObject) (hobj : t.type.isObject = true) :
    hasInputArgs t = true ↔ directInputRefs t ≠ [] := by
  unfold hasInputArgs
  rw [hobj]
  simp only [Bool.true_and, decide_eq_true_eq]
  constructor
  · intro h hnil
    rw [directInputRefs_nil] at hnil
    omega
  · intro h
    by_contra hneg
    have hzero : (t.fields.filter (fun field =>
        decide ((field.arguments.filter (fun arg => arg.type.isInput)).length > 0))).length = 0 := by
      omega
    exact h ((directInputRefs_nil t).mpr hzero)

theorem objGet_assoc (types : List GraphQLTypeObject) (t : GraphQLTypeObject)
    (hnd : (types.map (fun x => x.name)).Nodup) (ht : t ∈ types) :
    objGet (typeToInputTypeAssociationOf types) t.name =
      if hasInputArgs t then some (directInputRefs t) else none := by
  unfold typeToInputTypeAssociationOf
  have hnd2 : ((types.filter hasInputArgs).map (fun x => x.name)).Nodup :=
    hnd.sublist ((List.filter_sublist types).map (fun x => x.name))
  rw [objGet_buildMap (fun x => x.name) directInputRefs _ hnd2 t.name]
  by_cases hpt : hasInputArgs t
  · rw [if_pos hpt]
    have ht2 : t ∈ types.filter hasInputArgs := List.mem_filter.mpr ⟨ht, hpt⟩
    rw [find?_key_self (fun x => x.name) (types.filter hasInputArgs) hnd2 t ht2]
    rfl
  · rw [if_neg hpt]
    rw [find?_filter_none (fun x => x.name) hasInputArgs types hnd t ht hpt]
    rfl

theorem inputTypesMap_name (types : List GraphQLTypeObject)
    (hnd : (types.map (fun x => x.name)).Nodup) (n : String)
    (ity : GraphQLTypeObject) (h : objGet (inputTypesMapOf types) n = some ity) :
    ity.name = n := by
  unfold inputTypesMapOf at h
  have hnd2 : ((types.filter (fun t => t.type.isInput)).map (fun x => x.name)).Nodup :=
    hnd.sublist ((List.filter_sublist types).map (fun x => x.name))
  have hrw := objGet_buildMap (fun t : GraphQLTypeObject => t.name) (fun t => t)
    (types.filter (fun t => t.type.isInput)) hnd2 n
  rw [hrw] at h
  cases hfind : (types.filter (fun t => t.type.isInput)).find? (fun a => a.name = n) with
  | none => rw [hfind] at h; cases h
  | some x =>
    rw [hfind] at h
    have hx := List.find?_some hfind
    simp only [decide_eq_true_eq] at hx
    cases h
    exact hx

theorem declaredInputTypeNames_none (types : List GraphQLTypeObject)
    (t : GraphQLTypeObject)
    (h : objGet (typeToInputTypeAssociationOf types) t.name = none) :
    declaredInputTypeNames types t = [] := by
  simp only [declaredInputTypeNames]
  rw [h]

theorem declaredInputTypeNames_some (types : List GraphQLTypeObject)
    (t : GraphQLTypeObject) (refs : List String)
    (h : objGet (typeToInputTypeAssociationOf types) t.name = some refs) :
    declaredInputTypeNames types t =
      (dedupFirst refs).map (fun typeAssociation =>
        match objGet (inputTypesMapOf types) typeAssociation with
        | some inputType => inputType.name
        | none => "undefined") := by
  simp only [declaredInputTypeNames]
  rw [h]
  unfold getDistinctInputTypes
  rw [h]
  rfl

/-- C2: for every object type T (in a graph with distinct type names, every
directly referenced input type present in the registry), the input-type
declarations emitted inside T's declaration group are exactly the input
types directly referenced by the arguments of T's fields: the declared name
list is the first-occurrence deduplication of the direct references, it has
no duplicates, a name is declared iff it is directly referenced, and
renderInputTypeInterfaces emits exactly one interface declaration per
declared name, in that order. -/
theorem claim2_input_reachability (types : List GraphQLTypeObject)
    (t : GraphQLTypeObject)
    (hnd : (types.map (fun x => x.name)).Nodup)
    (ht : t ∈ types) (hobj : t.type.isObject = true)
    (hreg : ∀ n ∈ directInputRefs t, (objGet (inputTypesMapOf types) n).isSome = true) :
    declaredInputTypeNames types t = dedupFirst (directInputRefs t) ∧
    (declaredInputTypeNames types t).Nodup ∧
    (∀ n, n ∈ declaredInputTypeNames types t ↔ n ∈ directInputRefs t) ∧
    (∀ (mm : ModelMap) (im : InterfacesMap) (um : UnionsMap),
      renderInputTypeInterfaces t mm im um (typeToInputTypeAssociationOf types)
          (inputTypesMapOf types) =
        joinWith eol ((declaredInputTypeNames types t).map
          (renderOneInputTypeInterface mm im um (inputTypesMapOf types)))) := by
  have hassoc := objGet_assoc types t hnd ht
  have hmain : declaredInputTypeNames types t = dedupFirst (directInputRefs t) := by
    by_cases hpt : hasInputArgs t
    · rw [if_pos hpt] at hassoc
      rw [declaredInputTypeNames_some types t (directInputRefs t) hassoc]
      have hco : ∀ n ∈ dedupFirst (directInputRefs t),
          (fun typeAssociation =>
            match objGet (inputTypesMapOf types) typeAssociation with
            | some inputType => inputType.name
            | none => "undefined") n = id n := by
        intro n hn
        have hn2 : n ∈ directInputRefs t := (mem_dedupFirst n _).mp hn
        have hsome := hreg n hn2
        cases hity : objGet (inputTypesMapOf types) n with
        | none => rw [hity] at hsome; cases hsome
        | some ity =>
          show (match objGet (inputTypesMapOf types) n with
            | some inputType => inputType.name
            | none => "undefined") = n
          rw [hity]
          exact inputTypesMap_name types hnd n ity hity
      rw [List.map_congr_left hco, List.map_id]
    · rw [if_neg hpt] at hassoc
      rw [declaredInputTypeNames_none types t hassoc]
      have hrefs : directInputRefs t = [] := by
        by_contra hne
        exact hpt ((hasInputArgs_iff t hobj).mpr hne)
      rw [hrefs]
      rfl
  refine ⟨hmain, ?_, ?_, ?_⟩
  · rw [hmain]
    exact nodup_dedupFirst (directInputRefs t)
  · intro n
    rw [hmain]
    exact mem_dedupFirst n (directInputRefs t)
  · intro mm im um
    rw [hmain]
    by_cases hpt : hasInputArgs t
    · rw [if_pos hpt] at hassoc
      simp only [renderInputTypeInterfaces]
      rw [hassoc]
      unfold getDistinctInputTypes
      rw [hassoc]
      rfl
    · rw [if_neg hpt] at hassoc
      simp only [renderInputTypeInterfaces]
      rw [hassoc]
      have hrefs : directInputRefs t = [] := by
        by_contra hne
        exact hpt ((hasInputArgs_iff t hobj).mpr hne)
      rw [hrefs]
      rfl

/-- An input type InputA with one scalar field. -/
def inputAObject : GraphQLTypeObject :=
  { name := "InputA", type := { name := "InputA", isInput := true },
    fields := [{ name := "x", type := { name := "Int", isScalar := true },
                 arguments := [] }] }

/-- A Query object type whose single field references InputA through two
arguments. -/
def queryObject : GraphQLTypeObject :=
  { name := "Query", type := { name := "Query", isObject := true },
    fields := [{ name := "q", type := { name := "String", isScalar := true },
                 arguments := [{ name := "inp", type := { name := "InputA", isInput := true } },
                               { name := "inp2", type := { name := "InputA", isInput := true } }] }] }

/-- C2 (witness): the claim applied to Query in the two-type graph — the
twice-referenced InputA is declared exactly once. -/
theorem claim2_witness :
    declaredInputTypeNames [queryObject, inputAObject] queryObject = ["InputA"] ∧
    "InputA" ∈ directInputRefs queryObject := by
  constructor
  · have h := (claim2_input_reachability [queryObject, inputAObject] queryObject
      (by decide) (by decide) (by decide) (by decide)).1
    rw [h]
    rfl
  · decide

theorem renderResolversEntries_eq (args : GenerateArgs) :
    renderResolversEntries args =
      ((args.types.filter (fun t => t.type.isObject)).map (fun t => t.name)).map
        requiredResolverEntry ++
      (args.interfaces.map (fun i => i.name)).map optionalResolverEntry ++
      (args.unions.map (fun u => u.name)).map optionalResolverEntry := by
  simp only [renderResolversEntries, List.map_map]
  rfl

/-- C3: with distinct type names, the aggregate Resolvers declaration has,
for every object type, exactly one required entry binding its name to
<TypeName>Resolvers.Type; for every interface and union type exactly one
optional entry; no other entries; and a required entry never coincides with
an optional one. -/
theorem claim3_resolvers_coverage (args : GenerateArgs)
    (hnd : (((args.types.filter (fun t => t.type.isObject)).map (fun t => t.name)) ++
            (args.interfaces.map (fun i => i.name)) ++
            (args.unions.map (fun u => u.name))).Nodup) :
    (∀ t ∈ args.types, t.type.isObject = true →
      (renderResolversEntries args).count (requiredResolverEntry t.name) = 1) ∧
    (∀ i ∈ args.interfaces,
      (renderResolversEntries args).count (optionalResolverEntry i.name) = 1) ∧
    (∀ u ∈ args.unions,
      (renderResolversEntries args).count (optionalResolverEntry u.name) = 1) ∧
    (∀ e ∈ renderResolversEntries args,
      (∃ t, t ∈ args.types ∧ t.type.isObject = true ∧ e = requiredResolverEntry t.name) ∨
      (∃ i, i ∈ args.interfaces ∧ e = optionalResolverEntry i.name) ∨
      (∃ u, u ∈ args.unions ∧ e = optionalResolverEntry u.name)) ∧
    (∀ n m, requiredResolverEntry n ≠ optionalResolverEntry m) := by
  rw [List.nodup_append] at hnd
  obtain ⟨h1, hUnd, hdisj1⟩ := hnd
  rw [List.nodup_append] at h1
  obtain ⟨hOnd, hInd, hdisjOI⟩ := h1
  have hcross : ∀ n m, requiredResolverEntry n ≠ optionalResolverEntry m :=
    requiredResolverEntry_ne_optional
  have hreqNotOpt : ∀ (names : List String) (n : String),
      (names.map optionalResolverEntry).count (requiredResolverEntry n) = 0 := by
    intro names n
    rw [List.count_eq_zero]
    intro hmem
    rw [List.mem_map] at hmem
    obtain ⟨m, _, hm⟩ := hmem
    exact hcross n m hm.symm
  have hoptNotReq : ∀ (names : List String) (n : String),
      (names.map requiredResolverEntry).count (optionalResolverEntry n) = 0 := by
    intro names n
    rw [List.count_eq_zero]
    intro hmem
    rw [List.mem_map] at hmem
    obtain ⟨m, _, hm⟩ := hmem
    exact hcross m n hm
  have hoptCount : ∀ (names : List String) (n : String),
      (names.map optionalResolverEntry).count (optionalResolverEntry n) = names.count n :=
    fun names n => List.count_map_of_injective names optionalResolverEntry
      optionalResolverEntry_injective n
  refine ⟨?_, ?_, ?_, ?_, hcross⟩
  · intro t ht hobj
    rw [renderResolversEntries_eq, List.count_append, List.count_append]
    rw [List.count_map_of_injective _ requiredResolverEntry requiredResolverEntry_injective]
    have hmem : t.name ∈ (args.types.filter (fun t => t.type.isObject)).map (fun t => t.name) :=
      List.mem_map_of_mem (fun t => t.name) (List.mem_filter.mpr ⟨ht, hobj⟩)
    rw [List.count_eq_one_of_mem hOnd hmem, hreqNotOpt, hreqNotOpt]
  · intro i hi
    rw [renderResolversEntries_eq, List.count_append, List.count_append]
    have hmem : i.name ∈ args.interfaces.map (fun i => i.name) :=
      List.mem_map_of_mem (fun i => i.name) hi
    have hnotU : i.name ∉ args.unions.map (fun u => u.name) :=
      hdisj1 (List.mem_append_right _ hmem)
    rw [hoptNotReq, hoptCount, hoptCount, List.count_eq_one_of_mem hInd hmem,
      List.count_eq_zero.mpr hnotU]
  · intro u hu
    rw [renderResolversEntries_eq, List.count_append, List.count_append]
    have hmem : u.name ∈ args.unions.map (fun u => u.name) :=
      List.mem_map_of_mem (fun u => u.name) hu
    have hnotI : u.name ∉ args.interfaces.map (fun i => i.name) := by
      intro hin
      exact hdisj1 (List.mem_append_right _ hin) hmem
    rw [hoptNotReq, hoptCount, hoptCount, List.count_eq_one_of_mem hUnd hmem,
      List.count_eq_zero.mpr hnotI]
  · intro e he
    rw [renderResolversEntries_eq] at he
    rw [List.mem_append] at he
    rcases he with he | he
    · rw [List.mem_append] at he
      rcases he with he | he
      · rw [List.mem_map] at he
        obtain ⟨n, hn, rfl⟩ := he
        rw [List.mem_map] at hn
        obtain ⟨t, ht, rfl⟩ := hn
        rw [List.mem_filter] at ht
        exact Or.inl ⟨t, ht.1, ht.2, rfl⟩
      · rw [List.mem_map] at he
        obtain ⟨n, hn, rfl⟩ := he
        rw [List.mem_map] at hn
        obtain ⟨i, hi, rfl⟩ := hn
        exact Or.inr (Or.inl ⟨i, hi, rfl⟩)
    · rw [List.mem_map] at he
      obtain ⟨n, hn, rfl⟩ := he
      rw [List.mem_map] at hn
      obtain ⟨u, hu, rfl⟩ := hn
      exact Or.inr (Or.inr ⟨u, hu, rfl⟩)

/-- A concrete interface type Node. -/
def nodeInterface : GraphQLInterfaceObject :=
  { name := "Node", type := { name := "Node", isInterface := true },
    fields := [], implementors := [defA] }

/-- A concrete union type SearchResult. -/
def searchUnion : GraphQLUnionObject :=
  { name := "SearchResult", types := [defA, defB] }

/-- A concrete GenerateArgs value with one object, one input, one interface
and one union type. -/
def sampleArgs : GenerateArgs :=
  { types := [queryObject, inputAObject], enums := [],
    interfaces := [nodeInterface], unions := [searchUnion],
    context := none, modelMap := [], defaultResolversEnabled := false }

/-- C3 (witness): in the sample graph the required Query entry appears
exactly once in the aggregate Resolvers entry list. -/
theorem claim3_witness :
    (renderResolversEntries sampleArgs).count (requiredResolverEntry queryObject.name) = 1 :=
  (claim3_resolvers_coverage sampleArgs (by decide)).1 queryObject (by decide) rfl
